import Mathlib

/-!
Verification of the stoic-emperor persistent-memory agent runtime.

This file gives a shallow embedding of the claim-relevant parts of the
repository and proves or refutes the frozen claims about it.  Timestamps are
modelled as naturals, token estimation (the `tiktoken` encoder, an external
library) as an abstract function `String → Nat`, and LLM / vector-store calls
as explicit oracles.  Every definition is translated from the Python source
named in its doc comment; the single exception (`saveProfile`) is modelled
from the spec because its implementation is absent from the source tree.
-/

namespace StoicEmperor

/-! ## Data model (src/models/schemas.py, reduced to the claim-relevant fields) -/

/-- Message row: `Message` in src/models/schemas.py.  `createdAt` is the
`created_at` timestamp, modelled as a natural number. -/
structure Msg where
  id : Nat
  createdAt : Nat
  content : String
deriving DecidableEq

/-- Condensed-summary row: `CondensedSummary` in src/models/schemas.py. -/
structure Summary where
  id : Nat
  level : Nat
  content : String
  periodStart : Nat
  periodEnd : Nat
  sourceMessageCount : Nat
  sourceWordCount : Nat
  sourceSummaryIds : List Nat
deriving DecidableEq

/-- Default message used only for impossible index fallbacks (Python would
raise `IndexError` there). -/
def dummyMsg : Msg := ⟨0, 0, ""⟩

/-- Default summary used only for impossible index fallbacks. -/
def dummySummary : Summary := ⟨0, 0, "", 0, 0, 0, 0, []⟩

/-- Stable insertion of `x` into a list already sorted by `le`; equal elements
keep their original relative order, as in Python `list.sort` and a
deterministic SQL `ORDER BY`. -/
def insertLe (le : α → α → Bool) (x : α) : List α → List α
  | [] => [x]
  | y :: ys => if le x y then x :: y :: ys else y :: insertLe le x ys

/-- Stable sort by the boolean relation `le` (structural, so that concrete
instances reduce in the kernel). -/
def sortBy (le : α → α → Bool) : List α → List α
  | [] => []
  | x :: xs => insertLe le x (sortBy le xs)

/-! ## Relational store, single-user view (src/infrastructure/database.py)

A user's stored messages are modelled as a list in ascending `created_at`
order with distinct timestamps (the spec's strict-monotonicity invariant);
under that representation SQL `ORDER BY created_at` is the identity and
`ORDER BY created_at DESC` is `List.reverse`. -/

/-- `Database.get_recent_messages` (database.py:630): `ORDER BY created_at
DESC LIMIT ?`, then the Python wrapper reverses the fetched rows back into
ascending order. -/
def getRecentMessages (msgs : List Msg) (limit : Nat) : List Msg :=
  ((msgs.reverse).take limit).reverse

/-- `Database.get_messages_in_range` (database.py:581): rows of the user with
`created_at >= start` and/or `created_at <= end` when the bounds are given,
`ORDER BY created_at`. -/
def getMessagesInRange (msgs : List Msg) (startDate endDate : Option Nat) : List Msg :=
  msgs.filter fun m =>
    (startDate.all fun s => decide (s ≤ m.createdAt)) &&
    (endDate.all fun e => decide (m.createdAt ≤ e))

/-- Stable sort of summaries by `period_start` (SQL `ORDER BY period_start`,
also Python `summaries.sort(key=lambda s: s.period_start)`). -/
def sortByPeriodStart (sums : List Summary) : List Summary :=
  sortBy (fun a b => decide (a.periodStart ≤ b.periodStart)) sums

/-- `Database.get_condensed_summaries` with a `level` filter
(database.py:559): `WHERE user_id = ? AND level = ? ORDER BY period_start`. -/
def getSummariesAtLevel (sums : List Summary) (level : Nat) : List Summary :=
  sortByPeriodStart (sums.filter fun s => s.level == level)

/-- `Database.get_condensed_summaries` without a level filter
(database.py:559): `WHERE user_id = ? ORDER BY level, period_start`. -/
def getAllSummaries (sums : List Summary) : List Summary :=
  sortBy (fun a b =>
    decide (a.level < b.level) ||
      (a.level == b.level && decide (a.periodStart ≤ b.periodStart))) sums

/-! ## Condensation engine (src/memory/condensation.py)

`CondensationManager` holds the three thresholds from configuration and a
tokenizer; `tiktoken` is external, so `estimateTokens` is carried as an
abstract function. -/

/-- `CondensationManager.__init__` state: the token estimator
(`estimate_tokens`, condensation.py:23) and the `hot_buffer_tokens`,
`chunk_threshold_tokens` and `summary_budget_tokens` thresholds (defaults
4000 / 8000 / 12000). -/
structure CondensationManager where
  estimateTokens : String → Nat
  hotBufferTokens : Nat := 4000
  chunkThresholdTokens : Nat := 8000
  summaryBudgetTokens : Nat := 12000

/-- The newest-to-oldest hot-buffer walk of `get_uncondensed_messages`
(condensation.py:32-40): starting from the reversed recent list, count
messages while the running token total stays within `hot_buffer_tokens`,
stopping at the first message that would overflow. -/
def hotBufferWalk (cm : CondensationManager) : List Msg → Nat → Nat → Nat
  | [], _, count => count
  | m :: rest, tokens, count =>
    let t := cm.estimateTokens m.content
    if tokens + t ≤ cm.hotBufferTokens then hotBufferWalk cm rest (tokens + t) (count + 1)
    else count

/-- `hot_buffer_count` computed by `get_uncondensed_messages`
(condensation.py:32-40). -/
def hotBufferCount (cm : CondensationManager) (recent : List Msg) : Nat :=
  hotBufferWalk cm recent.reverse 0 0

/-- The hot buffer itself: the suffix of the recent messages that the walk
accumulated (the last `hotBufferCount` messages). -/
def hotBufferMsgs (cm : CondensationManager) (recent : List Msg) : List Msg :=
  recent.drop (recent.length - hotBufferCount cm recent)

/-- `cutoff_date` of `get_uncondensed_messages` (condensation.py:42):
`recent[-hot_buffer_count].created_at` — the timestamp of the OLDEST message
inside the hot buffer — when the hot buffer is nonempty, else
`datetime.now()` (modelled by the parameter `now`). -/
def cutoffDate (cm : CondensationManager) (recent : List Msg) (now : Nat) : Nat :=
  let hbc := hotBufferCount cm recent
  if 0 < hbc then (recent.getD (recent.length - hbc) dummyMsg).createdAt else now

/-- `latest_summary_end` of `get_uncondensed_messages` (condensation.py:44-47):
`max(s.period_end for s in summaries)` over all the user's summaries, `None`
when there are none. -/
def latestSummaryEnd (sums : List Summary) : Option Nat :=
  match getAllSummaries sums with
  | [] => none
  | s :: rest => some ((s :: rest).foldl (fun a t => max a t.periodEnd) 0)

/-- `CondensationManager.get_uncondensed_messages` (condensation.py:26-59). -/
def getUncondensedMessages (cm : CondensationManager) (msgs : List Msg)
    (sums : List Summary) (now : Nat) : List Msg :=
  let recent := getRecentMessages msgs 100
  if recent.length ≤ 1 then []
  else
    let cutoff := cutoffDate cm recent now
    let startDate := latestSummaryEnd sums
    let uncondensed := getMessagesInRange msgs startDate (some cutoff)
    match startDate with
    | some s => uncondensed.filter fun m => decide (s < m.createdAt)
    | none => uncondensed

/-- Total estimated tokens of a list of messages
(`sum(self.estimate_tokens(msg.content) for msg in …)`). -/
def totalMsgTokens (cm : CondensationManager) (msgs : List Msg) : Nat :=
  (msgs.map fun m => cm.estimateTokens m.content).sum

/-- `CondensationManager.should_condense` (condensation.py:61-67). -/
def shouldCondense (cm : CondensationManager) (msgs : List Msg)
    (sums : List Summary) (now : Nat) : Bool :=
  let uncondensed := getUncondensedMessages cm msgs sums now
  if uncondensed.isEmpty then false
  else decide (cm.chunkThresholdTokens ≤ totalMsgTokens cm uncondensed)

/-- Total estimated tokens of a list of summaries
(`sum(self.estimate_tokens(s.content) for s in summaries)`). -/
def totalSummaryTokens (cm : CondensationManager) (sums : List Summary) : Nat :=
  (sums.map fun s => cm.estimateTokens s.content).sum

/-- `CondensationManager.should_recurse` (condensation.py:159-165). -/
def shouldRecurse (cm : CondensationManager) (sums : List Summary) (level : Nat) : Bool :=
  let atLevel := getSummariesAtLevel sums level
  if atLevel.length ≤ 1 then false
  else decide (cm.summaryBudgetTokens < totalSummaryTokens cm atLevel)

/-- `CondensationManager.condense_summaries` (condensation.py:167-249).  The
summary body comes from an LLM (or consensus) call and is abstracted as the
parameter `content`; `newId` stands for the fresh row id.  Returns the single
level-`(level+1)` summary persisted via `save_condensed_summary`, or `none`
when there are at most one level-`level` summaries. -/
def condenseSummaries (sums : List Summary) (level : Nat)
    (newId : Nat) (content : String) : Option Summary :=
  let summaries := getSummariesAtLevel sums level
  if summaries.length ≤ 1 then none
  else
    let sorted := sortByPeriodStart summaries
    let batchSize := max 2 (sorted.length / 2)
    let batch := sorted.take batchSize
    some
      { id := newId
        level := level + 1
        content := content
        periodStart := (batch.headD dummySummary).periodStart
        periodEnd := (batch.getLastD dummySummary).periodEnd
        sourceMessageCount := (batch.map fun s => s.sourceMessageCount).sum
        sourceWordCount := (batch.map fun s => s.sourceWordCount).sum
        sourceSummaryIds := batch.map fun s => s.id }

/-! ## Profiles (src/infrastructure/database.py, src/cli/analyze.py)

`Database.save_profile` is called by `src/cli/analyze.py:_save_profile` and
exercised by `tests/test_database.py`, but its implementation is absent from
the source tree; it is modelled from the spec below.  `get_latest_profile`
is embedded from the source. -/

/-- Profile row (single-user view): `profiles` table, database.py:43-50. -/
structure ProfileRow where
  version : Nat
  content : String
deriving DecidableEq

/-- Largest version currently stored, 0 when none. -/
def maxVersion (profiles : List ProfileRow) : Nat :=
  profiles.foldl (fun a p => max a p.version) 0

/-- Modelled from the spec: `Database.save_profile` is missing from
src/infrastructure/database.py (only its caller `_save_profile` in
src/cli/analyze.py and its tests exist).  Per the spec, "save profile
(server assigns next version)" with versions "monotonically increasing …
per user, starting at 1": the new row gets version `maxVersion + 1`, which
also matches `tests/test_database.py::test_save_profile_increments_version`
(1 then 2). -/
def saveProfile (profiles : List ProfileRow) (content : String) : List ProfileRow :=
  profiles ++ [⟨maxVersion profiles + 1, content⟩]

/-- One step of the max-version scan: keep the row with the larger version,
the earlier row on ties. -/
def latestStep (acc : Option ProfileRow) (p : ProfileRow) : Option ProfileRow :=
  match acc with
  | none => some p
  | some q => if q.version < p.version then some p else some q

/-- Accumulator pass underlying `SELECT … ORDER BY version DESC LIMIT 1`:
the stored row with the largest version (first such row on ties, which the
version-uniqueness invariant rules out). -/
def latestAux : Option ProfileRow → List ProfileRow → Option ProfileRow
  | acc, [] => acc
  | acc, p :: rest => latestAux (latestStep acc p) rest

/-- `Database.get_latest_profile` (database.py:498-516): the user's profile
row with the highest version (`ORDER BY version DESC LIMIT 1`). -/
def getLatestProfile (profiles : List ProfileRow) : Option ProfileRow :=
  latestAux none profiles

/-- The profile store produced by a sequence of saves (the analysis path
calls `db.save_profile` once per run, analyze.py:195-196), starting empty. -/
def profilesAfter (saves : List String) : List ProfileRow :=
  saves.foldl saveProfile []

/-! ## Aegean consensus protocol (src/core/aegean_consensus.py)

LLM calls are abstracted as deterministic oracles indexed by round number:
`genA r` / `genB r` are the two generations of round `r` and `revAofB r` /
`revBofA r` the parsed cross-reviews (`_review_output` already absorbs JSON
parse failures into a not-approved review, so the oracle range is plain
reviews).  The `previous_feedback` variable update only changes what is sent
to the LLMs, which the round-indexed oracles absorb. -/

/-- Parsed review JSON, the fields the protocol reads: `approved`,
`strengths`, `reasoning` (aegean_consensus.py:141, 276-279, 285). -/
structure Review where
  approved : Bool
  strengths : List String
  reasoning : String
deriving DecidableEq

/-- `ConsensusRound` (aegean_consensus.py:18-26); `reviewAofB` is
`model_a_review` (model A reviewing B's output) and `reviewBofA` is
`model_b_review`. -/
structure CRound where
  roundNumber : Nat
  outputA : String
  outputB : String
  reviewAofB : Review
  reviewBofA : Review
  reached : Bool
deriving DecidableEq

/-- `ConsensusResult`, the claim-relevant fields (aegean_consensus.py:29-38). -/
structure CResult where
  finalOutput : String
  reached : Bool
  rounds : List CRound
  stabilityScore : ℚ
deriving DecidableEq

/-- Protocol instance: the two model names, the per-round LLM oracles, and
the parameters of `reach_consensus` (aegean_consensus.py:99-110). -/
structure Protocol where
  modelA : String
  modelB : String
  genA : Nat → String
  genB : Nat → String
  revAofB : Nat → Review
  revBofA : Nat → Review
  betaThreshold : Nat
  maxRounds : Nat
  useModelAOnFailure : Bool

/-- `AegeanConsensusProtocol._merge_outputs` (aegean_consensus.py:276-279):
`strengths_a` counts the strengths in model B's review of A's output,
`strengths_b` those in model A's review of B's output; return `output_a`
when `strengths_a >= strengths_b`, else `output_b`. -/
def mergeOutputs (outputA outputB : String) (reviewA reviewB : Review) : String :=
  let strengthsA := reviewB.strengths.length
  let strengthsB := reviewA.strengths.length
  if strengthsA ≥ strengthsB then outputA else outputB

/-- `AegeanConsensusProtocol._create_no_consensus_output`
(aegean_consensus.py:288-297). -/
def noConsensusOutput (p : Protocol) (rounds : List CRound) : String :=
  let last := rounds.getLastD ⟨0, "", "", ⟨false, [], ""⟩, ⟨false, [], ""⟩, false⟩
  "# Analysis - Manual Review Required\n\n## Model A (" ++ p.modelA ++ ")\n" ++
    last.outputA ++ "\n\n## Model B (" ++ p.modelB ++ ")\n" ++ last.outputB ++ "\n"

/-- `AegeanConsensusProtocol._calculate_stability_score`
(aegean_consensus.py:317-320). -/
def stabilityScore (rounds : List CRound) : ℚ :=
  if rounds.isEmpty then 0
  else ((rounds.filter fun r => r.reached).length : ℚ) / (rounds.length : ℚ)

/-- The `for round_num in range(1, max_rounds + 1)` loop of
`reach_consensus` (aegean_consensus.py:121-168): returns
`(consensus_reached, final_output-so-far, rounds)`. -/
def consensusLoop (p : Protocol) : Nat → Nat → Nat → List CRound → Bool × String × List CRound
  | _, 0, _, rounds => (false, "", rounds)
  | roundNum, remaining + 1, consecutive, rounds =>
    let outputA := p.genA roundNum
    let outputB := p.genB roundNum
    let reviewAofB := p.revAofB roundNum
    let reviewBofA := p.revBofA roundNum
    let aApproves := reviewBofA.approved
    let bApproves := reviewAofB.approved
    if aApproves && bApproves then
      let consecutive' := consecutive + 1
      if p.betaThreshold ≤ consecutive' then
        (true, mergeOutputs outputA outputB reviewAofB reviewBofA,
          rounds ++ [⟨roundNum, outputA, outputB, reviewAofB, reviewBofA, true⟩])
      else
        consensusLoop p (roundNum + 1) remaining consecutive'
          (rounds ++ [⟨roundNum, outputA, outputB, reviewAofB, reviewBofA, true⟩])
    else
      consensusLoop p (roundNum + 1) remaining 0
        (rounds ++ [⟨roundNum, outputA, outputB, reviewAofB, reviewBofA, false⟩])

/-- `AegeanConsensusProtocol.reach_consensus` (aegean_consensus.py:99-193):
run the round loop, then on failure fall back to the last round's model-A
output (or the manual-review document). -/
def reachConsensus (p : Protocol) : CResult :=
  let r := consensusLoop p 1 p.maxRounds 0 []
  let reached := r.1
  let rounds := r.2.2
  let finalOutput :=
    if reached then r.2.1
    else if p.useModelAOnFailure then
      match rounds.getLast? with
      | some last => last.outputA
      | none => ""
    else noConsensusOutput p rounds
  ⟨finalOutput, reached, rounds, stabilityScore rounds⟩

/-! ## LLM capability layer retries (src/utils/llm_client.py)

`LLMClient.generate` is decorated with
`@retry(stop=stop_after_attempt(3), wait=wait_exponential(multiplier=1, min=4, max=10))`
from the third-party `tenacity` library (llm_client.py:55).  Its semantics:
re-run the body on ANY exception — no `retry=` predicate restricts the
exception type — until 3 attempts have been made, waiting
`clamp(multiplier * 2^n, min, max)` seconds after the n-th failure; the last
exception surfaces when all attempts fail.  The body (one provider call) is
abstracted as `attempt : Nat → Except LLMError String`. -/

/-- A provider error carrying its HTTP status code. -/
structure LLMError where
  statusCode : Nat
deriving DecidableEq

instance {ε α : Type} [DecidableEq ε] [DecidableEq α] : DecidableEq (Except ε α) := fun a b =>
  match a, b with
  | .ok x, .ok y => decidable_of_iff (x = y) (by simp)
  | .error x, .error y => decidable_of_iff (x = y) (by simp)
  | .ok _, .error _ => .isFalse (by simp)
  | .error _, .ok _ => .isFalse (by simp)

/-- Whether an error is a 4xx semantic (client) error. -/
def is4xx (e : LLMError) : Bool :=
  decide (400 ≤ e.statusCode) && decide (e.statusCode < 500)

/-- Seconds waited after the n-th failed attempt:
`wait_exponential(multiplier=1, min=4, max=10)`. -/
def backoffWait (n : Nat) : Nat :=
  max 4 (min (2 ^ n) 10)

/-- `LLMClient.generate` under its tenacity decorator (llm_client.py:55):
the result together with the backoff waits performed. -/
def generateWithRetry (attempt : Nat → Except LLMError String) :
    Except LLMError String × List Nat :=
  match attempt 1 with
  | .ok s => (.ok s, [])
  | .error _ =>
    match attempt 2 with
    | .ok s => (.ok s, [backoffWait 1])
    | .error _ => (attempt 3, [backoffWait 1, backoffWait 2])

/-! ## Retrieval (src/memory/retrieval.py, src/memory/semantic.py,
src/memory/episodic.py, src/web/api.py)

The vector store is abstracted as an oracle
`query collection queryText nResults whereUser` returning either a failure
(any raised exception, modelled as `Except.error ()`) or a result dict whose
`documents` entry is a list (one inner list per query text) and whose
`metadatas` entry carries the `confidence` metadata values. -/

/-- Vector-store `query` result: the `documents` and `metadatas` fields of
the returned dict (`confidence` is the only metadata key read). -/
structure QRes where
  documents : List (List String)
  metadatas : List (List ℚ)
deriving DecidableEq

/-- Vector-store handle: `VectorStore.query(collection, query_texts=[q],
n_results=n, where={"user_id": uid}?)`, which may raise. -/
structure VecStore where
  query : String → String → Nat → Option String → Except Unit QRes

/-- The document-extraction idiom
`if results.get("documents") and results["documents"][0]: return
results["documents"][0]` / `return []` shared by the retrieval call sites. -/
def extractDocs (r : QRes) : List String :=
  match r.documents with
  | [] => []
  | d :: _ => if d.isEmpty then [] else d

/-- `UnifiedRetriever._expand_query` (retrieval.py:82-88): on oracle failure
fall back to the raw user message; otherwise split the expansion on commas,
trim, and re-join with spaces (the term list of a `str.split` is never
empty, so the `if terms` guard always takes the join branch). -/
def expandQuery (expandO : Except Unit String) (userMessage : String) : String :=
  match expandO with
  | .error _ => userMessage
  | .ok expanded =>
    let terms := (expanded.splitOn ",").map String.trim
    if terms.isEmpty then userMessage else " ".intercalate terms

/-- `UnifiedRetriever._query_collection` (retrieval.py:90-106): the one call
site that swallows query failures into an empty list. -/
def queryCollectionSwallow (vs : VecStore) (collection queryText : String)
    (nResults : Nat) : List String :=
  match vs.query collection queryText nResults none with
  | .ok r => extractDocs r
  | .error _ => []

/-- `EpisodicMemory.search_past_conversations` (episodic.py:54-61): queries
`episodic` filtered by `user_id` with NO exception handler, so a query
failure propagates. -/
def searchPastConversations (vs : VecStore) (userId queryText : String)
    (nResults : Nat) : Except Unit (List String) :=
  (vs.query "episodic" queryText nResults (some userId)).map extractDocs

/-- The append-until-n confidence filter of
`SemanticMemory.get_relevant_insights` (semantic.py:75-83): walk the
zipped (document, confidence) pairs, keep those with confidence at least
`minConfidence`, and stop as soon as `nResults` are collected. -/
def collectConfident (minConfidence : ℚ) (nResults : Nat) :
    List (String × ℚ) → Nat → List String
  | [], _ => []
  | (d, c) :: rest, collected =>
    if minConfidence ≤ c then
      if nResults ≤ collected + 1 then [d]
      else d :: collectConfident minConfidence nResults rest (collected + 1)
    else collectConfident minConfidence nResults rest collected

/-- `SemanticMemory.get_relevant_insights` (semantic.py:65-85): queries
`semantic` filtered by `user_id` asking for `n_results * 2` hits, then
filters by confidence; there is NO exception handler, so a query failure
propagates.  (`results.get("metadatas", [[]])[0]` is modelled as the first
metadata list, `[]` when absent.) -/
def getRelevantInsights (vs : VecStore) (userId queryText : String)
    (nResults : Nat) (minConfidence : ℚ) : Except Unit (List String) :=
  (vs.query "semantic" queryText (nResults * 2) (some userId)).map fun r =>
    match r.documents with
    | [] => []
    | docs :: _ =>
      if docs.isEmpty then []
      else
        let metas := r.metadatas.headD []
        collectConfident minConfidence nResults (docs.zip metas) 0

/-- `RetrievalContext` (retrieval.py:12-19). -/
structure RetrievalContext where
  recentMessages : List String
  episodicMatches : List String
  semanticInsights : List String
  stoicWisdom : List String
  psychoanalysis : List String
  expandedQuery : String
deriving DecidableEq

/-- `UnifiedRetriever.retrieve` (retrieval.py:44-80).  The relational-store
recent-context lookup (`EpisodicMemory.get_recent_context`, a database call,
not a vector query) is passed in as `recentMessages`.  Failures of the
`episodic` and `semantic` queries propagate; the `stoic_wisdom` and
`psychoanalysis` queries go through `_query_collection`, which swallows. -/
def retrieve (expandO : Except Unit String) (vs : VecStore)
    (recentMessages : List String) (userId userMessage : String)
    (nResults : Nat) : Except Unit RetrievalContext := do
  let expandedQuery := expandQuery expandO userMessage
  let episodicMatches ← searchPastConversations vs userId expandedQuery nResults
  let semanticInsights ← getRelevantInsights vs userId expandedQuery nResults (1 / 2)
  let stoicWisdom := queryCollectionSwallow vs "stoic_wisdom" expandedQuery nResults
  let psychoanalysis := queryCollectionSwallow vs "psychoanalysis" expandedQuery nResults
  return ⟨recentMessages, episodicMatches, semanticInsights, stoicWisdom,
    psychoanalysis, expandedQuery⟩

/-! ### Per-turn fan-out of the web orchestrator (src/web/api.py:433-473)

The chat endpoint (api.py:247) builds its context through `_retrieve_context`,
which issues exactly four vector queries, each inside its own
`try/except:pass`.  The embedding returns, alongside the context, the list of
query requests issued, so the fan-out parameters can be stated. -/

/-- One vector query request as issued by `_retrieve_context`. -/
structure VQRequest where
  collection : String
  queryText : String
  nResults : Nat
  whereUser : Option String
deriving DecidableEq

/-- Context dict built by `_retrieve_context` (api.py:436). -/
structure ApiContext where
  stoic : List String
  psych : List String
  insights : List String
  episodic : List String
deriving DecidableEq

/-- The query-expansion block of `_retrieve_context` (api.py:438-443),
identical in behaviour to `UnifiedRetriever._expand_query`. -/
def apiQueryText (expandO : Except Unit String) (userMessage : String) : String :=
  expandQuery expandO userMessage

/-- `_retrieve_context` (api.py:433-473): the four fan-out queries —
`stoic_wisdom` top-3 unfiltered, `psychoanalysis` top-3 unfiltered,
`semantic` top-5 filtered by `user_id`, `episodic` top-3 filtered by
`user_id` — each with its failure swallowed.  Returns the context and the
requests issued. -/
def apiRetrieveContext (expandO : Except Unit String) (vs : VecStore)
    (userMessage userId : String) : ApiContext × List VQRequest :=
  let queryText := apiQueryText expandO userMessage
  let req1 : VQRequest := ⟨"stoic_wisdom", queryText, 3, none⟩
  let stoic :=
    match vs.query req1.collection req1.queryText req1.nResults req1.whereUser with
    | .ok r => extractDocs r
    | .error _ => []
  let req2 : VQRequest := ⟨"psychoanalysis", queryText, 3, none⟩
  let psych :=
    match vs.query req2.collection req2.queryText req2.nResults req2.whereUser with
    | .ok r => extractDocs r
    | .error _ => []
  let req3 : VQRequest := ⟨"semantic", queryText, 5, some userId⟩
  let insights :=
    match vs.query req3.collection req3.queryText req3.nResults req3.whereUser with
    | .ok r => extractDocs r
    | .error _ => []
  let req4 : VQRequest := ⟨"episodic", queryText, 3, some userId⟩
  let episodic :=
    match vs.query req4.collection req4.queryText req4.nResults req4.whereUser with
    | .ok r => extractDocs r
    | .error _ => []
  (⟨stoic, psych, insights, episodic⟩, [req1, req2, req3, req4])

/-! ## Response guard (src/utils/response_guard.py)

Text is modelled as a list of character code points (`List Nat`), ASCII in
all concrete inputs, so that the Python string primitives (`str.lower`,
`re.sub`, `str.split`, `str.strip`, `re.split`) have direct structural
counterparts.  The Python float threshold is modelled as an exact rational.
-/

/-- Code points of a string literal. -/
def enc (s : String) : List Nat :=
  s.data.map Char.toNat

/-- ASCII whitespace class of Python regex `\s` and of `str.split()` /
`str.strip()`: space, tab, newline, carriage return, form feed, vertical
tab. -/
def isSpaceCh (c : Nat) : Bool :=
  c == 32 || c == 9 || c == 10 || c == 13 || c == 12 || c == 11

/-- ASCII word class of Python regex `\w`: letters, digits, underscore. -/
def isWordCh (c : Nat) : Bool :=
  (48 ≤ c && c ≤ 57) || (65 ≤ c && c ≤ 90) || (97 ≤ c && c ≤ 122) || c == 95

/-- ASCII `str.lower` on one character. -/
def toLowerCh (c : Nat) : Nat :=
  if 65 ≤ c && c ≤ 90 then c + 32 else c

/-- One step of `re.sub(r"[^\w\s]", " ", text)`: non-word, non-space
characters become a space. -/
def subNonWordSpace (c : Nat) : Nat :=
  if isWordCh c || isSpaceCh c then c else 32

/-- `re.sub(r"\s+", " ", text)`: collapse each maximal whitespace run into a
single space; the flag records whether the previous character was
whitespace. -/
def collapseWsAux (prevSpace : Bool) : List Nat → List Nat
  | [] => []
  | c :: rest =>
    if isSpaceCh c then
      if prevSpace then collapseWsAux true rest else 32 :: collapseWsAux true rest
    else c :: collapseWsAux false rest

/-- `str.strip()`: drop leading and trailing whitespace. -/
def stripWs (l : List Nat) : List Nat :=
  ((l.dropWhile isSpaceCh).reverse.dropWhile isSpaceCh).reverse

/-- `ResponseGuard._normalize` (response_guard.py:10-14): lowercase,
punctuation to spaces, whitespace collapsed, stripped. -/
def normalizeText (t : List Nat) : List Nat :=
  stripWs (collapseWsAux false ((t.map toLowerCh).map subNonWordSpace))

/-- `str.split()` with no separator: split on whitespace runs, dropping
empty parts; `acc` holds the current word reversed. -/
def splitWsAux (acc : List Nat) : List Nat → List (List Nat)
  | [] => if acc.isEmpty then [] else [acc.reverse]
  | c :: rest =>
    if isSpaceCh c then
      if acc.isEmpty then splitWsAux [] rest else acc.reverse :: splitWsAux [] rest
    else splitWsAux (c :: acc) rest

/-- Words of a normalized text: `self._normalize(text).split()`. -/
def normalizedWords (t : List Nat) : List (List Nat) :=
  splitWsAux [] (normalizeText t)

/-- `ResponseGuard._extract_ngrams` (response_guard.py:16-20): the SET of
`ngramSize`-grams of the normalized words, modelled as a deduplicated
list (empty when there are fewer than `ngramSize` words). -/
def extractNgrams (ngramSize : Nat) (t : List Nat) : List (List (List Nat)) :=
  let ws := normalizedWords t
  if ws.length < ngramSize then []
  else
    (((List.range (ws.length - ngramSize + 1)).map
      fun i => (ws.drop i).take ngramSize)).dedup

/-- Cardinality of a set intersection, on deduplicated lists:
`len(sentence_ngrams & self.protected_ngrams)`. -/
def interCard (a b : List (List (List Nat))) : Nat :=
  (a.filter fun x => decide (x ∈ b)).length

/-- `ResponseGuard._sentence_ngram_overlap` (response_guard.py:22-27):
`|S ∩ P| / |S|`, 0 when either set is empty.  The ratio is kept as an exact
(numerator, denominator) pair, `(0, 1)` standing for `0.0`; all comparisons
against it go through `ratioLe`, so the Python float arithmetic is modelled
exactly. -/
def sentenceNgramOverlap (protNgrams : List (List (List Nat)))
    (ngramSize : Nat) (sentence : List Nat) : Nat × Nat :=
  let sn := extractNgrams ngramSize sentence
  if sn.isEmpty || protNgrams.isEmpty then (0, 1)
  else (interCard sn protNgrams, sn.length)

/-- Exact-fraction comparison `tn/td ≤ a/b` for positive denominators:
`tn * b ≤ a * td`. -/
def ratioLe (tn td a b : Nat) : Bool :=
  decide (tn * b ≤ a * td)

/-- Sentence delimiter class of `re.split(r"[.!?\n]", response)`. -/
def isSentenceDelim (c : Nat) : Bool :=
  c == 46 || c == 33 || c == 63 || c == 10

/-- `re.split(r"[.!?\n]", response)`: cut at every delimiter, keeping empty
segments (as Python `re.split` does). -/
def splitSentences (acc : List Nat) : List Nat → List (List Nat)
  | [] => [acc.reverse]
  | c :: rest =>
    if isSentenceDelim c then acc.reverse :: splitSentences [] rest
    else splitSentences (c :: acc) rest

/-- `ResponseGuard.check_leakage` (response_guard.py:29-41): split into
sentences, strip each, skip those with fewer than `ngramSize` words, flag
when any remaining sentence has n-gram overlap at least `threshold` with the
protected n-grams. -/
def checkLeakage (protNgrams : List (List (List Nat))) (ngramSize : Nat)
    (thresholdNum thresholdDen : Nat) (response : List Nat) : Bool :=
  (splitSentences [] response).any fun s0 =>
    let s := stripWs s0
    if (splitWsAux [] s).length < ngramSize then false
    else
      let ov := sentenceNgramOverlap protNgrams ngramSize s
      ratioLe thresholdNum thresholdDen ov.1 ov.2

/-- Matching of one keyword pattern (a sequence of literal words separated
by `.?`, i.e. by at most one non-newline character) at position `i` of `s`:
`seqAt s i [w₁, …, wₘ]` holds when `w₁` occurs at `i` and the remaining
words follow each other with gaps of 0 or 1 non-newline characters. -/
def seqAt (s : List Nat) : Nat → List (List Nat) → Bool
  | _, [] => true
  | i, [w] => w.isPrefixOf (s.drop i)
  | i, w :: w2 :: ws =>
    w.isPrefixOf (s.drop i) &&
      (seqAt s (i + w.length) (w2 :: ws) ||
        (match s.drop (i + w.length) with
         | [] => false
         | c :: _ => !(c == 10) && seqAt s (i + w.length + 1) (w2 :: ws)))

/-- `re.search` of a gap pattern: a match may start at any position. -/
def searchSeq (s : List Nat) (ws : List (List Nat)) : Bool :=
  (List.range (s.length + 1)).any fun i => seqAt s i ws

/-- `SENSITIVE_PATTERNS` (response_guard.py:50-61), with each regex
alternation `(?:a|b|…)` expanded into one sequence per alternative and
`\d` expanded into the ten digits: `psych.?update`, `detected.?patterns`,
`emotional.?state`, `confidence.?(?:score|float|0\.\d)`,
`json.?object.?containing`, `output.?format`,
`system.?(?:prompt|message|instruction)`, `persona.?directive`,
`safety.?protocol`, `meta.?instruction`. -/
def sensitivePatterns : List (List (List Nat)) :=
  [[enc "psych", enc "update"],
   [enc "detected", enc "patterns"],
   [enc "emotional", enc "state"],
   [enc "confidence", enc "score"],
   [enc "confidence", enc "float"],
   [enc "confidence", enc "0.0"],
   [enc "confidence", enc "0.1"],
   [enc "confidence", enc "0.2"],
   [enc "confidence", enc "0.3"],
   [enc "confidence", enc "0.4"],
   [enc "confidence", enc "0.5"],
   [enc "confidence", enc "0.6"],
   [enc "confidence", enc "0.7"],
   [enc "confidence", enc "0.8"],
   [enc "confidence", enc "0.9"],
   [enc "json", enc "object", enc "containing"],
   [enc "output", enc "format"],
   [enc "system", enc "prompt"],
   [enc "system", enc "message"],
   [enc "system", enc "instruction"],
   [enc "persona", enc "directive"],
   [enc "safety", enc "protocol"],
   [enc "meta", enc "instruction"]]

/-- `contains_sensitive_keywords` (response_guard.py:64-69): case-insensitive
search of every sensitive pattern in the response. -/
def containsSensitiveKeywords (response : List Nat) : Bool :=
  let lower := response.map toLowerCh
  sensitivePatterns.any fun p => searchSeq lower p

/-- The fixed replacement returned on a keyword hit
(response_guard.py:76-79). -/
def safeKeywordSentence : List Nat :=
  enc "Let us turn our attention to what truly matters - your wellbeing. What challenges are you facing?"

/-- The fixed replacement returned on an n-gram leak (response_guard.py:85);
the apostrophes of the original text are code point 39. -/
def safeLeakSentence : List Nat :=
  enc "I" ++ [39] ++ enc "d rather focus on what brings you here today. What" ++
    [39] ++ enc "s weighing on your mind?"

/-- `guard_response` (response_guard.py:72-87): keyword scan first, then the
n-gram leak check against the protected prompt; returns the (possibly
replaced) text and the blocked flag.  The threshold (default 0.3) is the
exact fraction `thresholdNum / thresholdDen`. -/
def guardResponse (response protectedPrompt : List Nat) (ngramSize : Nat)
    (thresholdNum thresholdDen : Nat) : List Nat × Bool :=
  if containsSensitiveKeywords response then (safeKeywordSentence, true)
  else
    let protNgrams := extractNgrams ngramSize protectedPrompt
    if checkLeakage protNgrams ngramSize thresholdNum thresholdDen response then
      (safeLeakSentence, true)
    else (response, false)

/-! ## Concrete instances used by the counterexamples and witnesses -/

/-- A level-1 summary with id `i` covering `[10*i, 10*i+5]`. -/
def exSummary (i : Nat) : Summary :=
  ⟨i, 1, "c", 10 * i, 10 * i + 5, 10, 100, []⟩

/-- Five stored level-1 summaries in period order. -/
def exFiveSummaries : List Summary :=
  [exSummary 1, exSummary 2, exSummary 3, exSummary 4, exSummary 5]

/-- A condensation manager whose token estimator returns 20000 for every
text (modelling one very long summary body), with the default thresholds. -/
def cmTok20k : CondensationManager :=
  ⟨fun _ => 20000, 4000, 8000, 12000⟩

/-- A condensation manager with 10 tokens per message and a hot-buffer
budget of 25 tokens (the spec scenario scale). -/
def cmHot25 : CondensationManager :=
  ⟨fun _ => 10, 25, 200, 12000⟩

/-- A condensation manager whose estimator reports a million tokens for any
text. -/
def cmHuge : CondensationManager :=
  ⟨fun _ => 1000000, 4000, 8000, 12000⟩

/-- Message `i`, created at time `i`. -/
def exMsg (i : Nat) : Msg := ⟨i, i, "m"⟩

/-- Five stored messages at times 1..5. -/
def exFiveMsgs : List Msg :=
  [exMsg 1, exMsg 2, exMsg 3, exMsg 4, exMsg 5]

/-- Consensus scenario: both models approve in round 1; the reviewer of
A's output lists one strength, the reviewer of B's output two. -/
def protoHappy : Protocol :=
  ⟨"A", "B", fun _ => "OK_A", fun _ => "OK_B",
   fun _ => ⟨true, ["s1", "s2"], "r"⟩, fun _ => ⟨true, ["s1"], "r"⟩, 1, 1, true⟩

/-- Attempt trace whose first provider call raises a 422 (4xx semantic)
error and whose second call succeeds. -/
def attempt4xxThenOk : Nat → Except LLMError String :=
  fun n => if n = 1 then .error ⟨422⟩ else .ok "recovered"

/-- Vector store whose every query succeeds with no hits. -/
def vsAllOkEmpty : VecStore :=
  ⟨fun _ _ _ _ => .ok ⟨[[]], [[]]⟩⟩

/-- Vector store whose `semantic` query raises and whose other queries
succeed with no hits. -/
def vsSemanticFails : VecStore :=
  ⟨fun c _ _ _ => if c = "semantic" then .error () else .ok ⟨[[]], [[]]⟩⟩

/-- A response that plainly echoes a meta-instruction token. -/
def respPsychUpdate : List Nat := enc "psych_update"

/-- The batch taken by `condense_summaries` (condensation.py:172-175): the
first `max 2 (n / 2)` of the level-`level` summaries in `period_start`
order, `n` being their number (Python `len(summaries) // 2` is floor
division). -/
def condBatch (sums : List Summary) (level : Nat) : List Summary :=
  let sorted := sortByPeriodStart (getSummariesAtLevel sums level)
  sorted.take (max 2 (sorted.length / 2))

/-! ## Theorems -/

theorem insertLe_length {α : Type} (le : α → α → Bool) (x : α) :
    ∀ l : List α, (insertLe le x l).length = l.length + 1 := by
  intro l
  induction l with
  | nil => rfl
  | cons y ys ih => by_cases h : le x y = true <;> simp [insertLe, h, ih]

theorem sortBy_length {α : Type} (le : α → α → Bool) :
    ∀ l : List α, (sortBy le l).length = l.length := by
  intro l
  induction l with
  | nil => rfl
  | cons y ys ih => simp [sortBy, insertLe_length, ih]

theorem except_isOk_iff {α : Type} (e : Except Unit α) :
    e.isOk = true ↔ ∃ a, e = .ok a := by
  cases e <;> simp [Except.isOk, Except.toBool]

/-- Claim C5, counterexample: a single stored level-1 summary whose
estimated tokens (20000) exceed the budget B = 12000, for which
`should_recurse` nevertheless returns false — refuting the claimed
"if and only if". -/
theorem shouldRecurse_single_summary_cx :
    shouldRecurse cmTok20k [exSummary 1] 1 = false ∧
    cmTok20k.summaryBudgetTokens <
      totalSummaryTokens cmTok20k (getSummariesAtLevel [exSummary 1] 1) := by
  decide

/-- Claim C5 (amended): `should_recurse(user, L)` returns true iff there are
at least TWO stored level-L summaries AND their total estimated tokens
exceed the summary budget B; with zero or one level-L summaries it returns
false regardless of their token total. -/
theorem shouldRecurse_iff (cm : CondensationManager) (sums : List Summary) (level : Nat) :
    shouldRecurse cm sums level = true ↔
      2 ≤ (getSummariesAtLevel sums level).length ∧
        cm.summaryBudgetTokens < totalSummaryTokens cm (getSummariesAtLevel sums level) := by
  unfold shouldRecurse
  by_cases h : (getSummariesAtLevel sums level).length ≤ 1
  · simp [h]
    omega
  · simp [h]
    omega

/-- Claim C6, counterexample: the first attempt raises a 422 (4xx semantic)
error, yet `generate` retries and returns the second attempt's success —
the 4xx error does not surface to the caller after the first attempt. -/
theorem generate_retries_4xx_cx :
    attempt4xxThenOk 1 = .error ⟨422⟩ ∧ is4xx ⟨422⟩ = true ∧
    (generateWithRetry attempt4xxThenOk).1 = .ok "recovered" := by
  decide

/-- Claim C6 (amended): `LLMClient.generate` retries with backoff (each wait
clamped to [4 s, 10 s]) for up to 3 attempts on ANY error — tenacity is
given no retry predicate, so 4xx semantic errors are retried like transport
or rate errors; an error surfaces only when all three attempts fail, and
then it is the third attempt's error. -/
theorem generate_retry_semantics (attempt : Nat → Except LLMError String) :
    (∀ e, (generateWithRetry attempt).1 = .error e ↔
      (attempt 1).isOk = false ∧ (attempt 2).isOk = false ∧ attempt 3 = .error e) ∧
    (∀ s, (generateWithRetry attempt).1 = .ok s ↔
      (attempt 1 = .ok s ∨ ((attempt 1).isOk = false ∧
        (attempt 2 = .ok s ∨ ((attempt 2).isOk = false ∧ attempt 3 = .ok s))))) ∧
    (∀ w ∈ (generateWithRetry attempt).2, 4 ≤ w ∧ w ≤ 10) := by
  cases h1 : attempt 1 <;> cases h2 : attempt 2 <;> cases h3 : attempt 3 <;>
    simp [generateWithRetry, h1, h2, h3, Except.isOk, Except.toBool, backoffWait]

/-- Claim C8: the per-turn retrieval fan-out (`_retrieve_context` in
src/web/api.py, called by the chat endpoint) issues exactly four vector
queries: `stoic_wisdom` top-3 with no filter, `psychoanalysis` top-3 with
no filter, `semantic` top-5 filtered by `user_id`, and `episodic` top-3
filtered by `user_id`. -/
theorem apiRetrieveContext_fanout (expandO : Except Unit String) (vs : VecStore)
    (userMessage userId : String) :
    (apiRetrieveContext expandO vs userMessage userId).2 =
      [⟨"stoic_wisdom", apiQueryText expandO userMessage, 3, none⟩,
       ⟨"psychoanalysis", apiQueryText expandO userMessage, 3, none⟩,
       ⟨"semantic", apiQueryText expandO userMessage, 5, some userId⟩,
       ⟨"episodic", apiQueryText expandO userMessage, 3, some userId⟩] := by
  rfl

/-- Claim C3, counterexample: a vector store whose `semantic` query raises
(while its `episodic` and unfiltered queries succeed) makes
`UnifiedRetriever.retrieve` itself raise — the failure is not swallowed into
an empty list. -/
theorem retrieve_semantic_failure_cx :
    retrieve (.error ()) vsSemanticFails [] "u" "hello" 5 = .error () ∧
    (vsSemanticFails.query "episodic" "hello" 5 (some "u")).isOk = true ∧
    (vsSemanticFails.query "stoic_wisdom" "hello" 5 none).isOk = true ∧
    vsSemanticFails.query "semantic" "hello" 10 (some "u") = .error () := by
  decide

/-- Claim C3 (amended): in `UnifiedRetriever.retrieve` only the
`stoic_wisdom` and `psychoanalysis` queries (routed through
`_query_collection`) have their failures swallowed into empty lists;
`retrieve` succeeds if and only if the `episodic` query and the `semantic`
query (which has no handler and asks for `2n` hits) both succeed, whatever
the other queries and the query expansion do. -/
theorem retrieve_besteffort_iff (expandO : Except Unit String) (vs : VecStore)
    (recentMessages : List String) (userId userMessage : String) (n : Nat) :
    (retrieve expandO vs recentMessages userId userMessage n).isOk = true ↔
      ((vs.query "episodic" (expandQuery expandO userMessage) n (some userId)).isOk = true ∧
       (vs.query "semantic" (expandQuery expandO userMessage) (n * 2) (some userId)).isOk
         = true) := by
  unfold retrieve searchPastConversations getRelevantInsights
  cases he : vs.query "episodic" (expandQuery expandO userMessage) n (some userId) <;>
    cases hs : vs.query "semantic" (expandQuery expandO userMessage) (n * 2) (some userId) <;>
      simp [he, hs, Except.map, Except.isOk, Except.toBool, bind, Except.bind, pure, Except.pure]

/-- Claim C10: with at most one stored message among the user's most recent
100, `get_uncondensed_messages` returns the empty list and
`should_condense` returns false, regardless of the token estimator — a
single message can never trigger condensation even if it alone exceeds the
chunk threshold. -/
theorem single_message_no_condense (cm : CondensationManager) (msgs : List Msg)
    (sums : List Summary) (now : Nat) (h : msgs.length ≤ 1) :
    getUncondensedMessages cm msgs sums now = [] ∧
      shouldCondense cm msgs sums now = false := by
  have hr : (getRecentMessages msgs 100).length ≤ 1 := by
    simp only [getRecentMessages, List.length_reverse, List.length_take]
    omega
  have h1 : getUncondensedMessages cm msgs sums now = [] := by
    unfold getUncondensedMessages
    simp [hr]
  refine ⟨h1, ?_⟩
  unfold shouldCondense
  simp [h1]

/-- Claim C10 witness: one stored message estimated at a million tokens
(far above the default chunk threshold C = 8000) still yields no
uncondensed messages and no condensation. -/
theorem single_message_no_condense_witness :
    getUncondensedMessages cmHuge [exMsg 1] [] 0 = [] ∧
      shouldCondense cmHuge [exMsg 1] [] 0 = false :=
  single_message_no_condense cmHuge [exMsg 1] [] 0 (by decide)

/-- Claim C2, counterexample: with five stored level-1 summaries the batch
condensed by `condense_summaries` is the first `max 2 (5 / 2) = 2` of them
in period order — not the first ⌈5/2⌉ = 3 the claim states: the persisted
`source_summary_ids` are `[1, 2]`, not `[1, 2, 3]`. -/
theorem condense_five_summaries_cx :
    (condenseSummaries exFiveSummaries 1 99 "x").map Summary.sourceSummaryIds
        = some [1, 2] ∧
      (condenseSummaries exFiveSummaries 1 99 "x").map Summary.sourceSummaryIds
        ≠ some [1, 2, 3] := by
  decide

/-- Claim C2 (amended): for n ≥ 2 stored level-L summaries,
`condense_summaries(user, L)` persists exactly one level-(L+1) summary whose
`source_summary_ids` are the ids of the first `max 2 (⌊n/2⌋)` level-L
summaries ordered by `period_start` (floor division, not ⌈n/2⌉), and whose
period spans that batch. -/
theorem condense_summaries_batch (sums : List Summary) (level newId : Nat)
    (content : String) (h : 2 ≤ (getSummariesAtLevel sums level).length) :
    condenseSummaries sums level newId content =
      some ⟨newId, level + 1, content,
        ((condBatch sums level).headD dummySummary).periodStart,
        ((condBatch sums level).getLastD dummySummary).periodEnd,
        ((condBatch sums level).map fun s => s.sourceMessageCount).sum,
        ((condBatch sums level).map fun s => s.sourceWordCount).sum,
        (condBatch sums level).map fun s => s.id⟩ ∧
    (condBatch sums level).length = max 2 ((getSummariesAtLevel sums level).length / 2) := by
  have hlen : (sortByPeriodStart (getSummariesAtLevel sums level)).length
      = (getSummariesAtLevel sums level).length := sortBy_length _ _
  constructor
  · unfold condenseSummaries condBatch
    rw [if_neg (by omega)]
  · unfold condBatch
    simp only [List.length_take, hlen]
    omega

/-- Claim C2 witness: the amended batch rule applied to the five-summary
store. -/
theorem condense_summaries_batch_witness :
    condenseSummaries exFiveSummaries 1 99 "x" =
      some ⟨99, 2, "x",
        ((condBatch exFiveSummaries 1).headD dummySummary).periodStart,
        ((condBatch exFiveSummaries 1).getLastD dummySummary).periodEnd,
        ((condBatch exFiveSummaries 1).map fun s => s.sourceMessageCount).sum,
        ((condBatch exFiveSummaries 1).map fun s => s.sourceWordCount).sum,
        (condBatch exFiveSummaries 1).map fun s => s.id⟩ ∧
    (condBatch exFiveSummaries 1).length
      = max 2 ((getSummariesAtLevel exFiveSummaries 1).length / 2) :=
  condense_summaries_batch exFiveSummaries 1 99 "x" (by decide)

theorem latestAux_append (l : List ProfileRow) :
    ∀ (acc : Option ProfileRow) (p : ProfileRow),
      latestAux acc (l ++ [p]) = latestStep (latestAux acc l) p := by
  induction l with
  | nil => intro acc p; rfl
  | cons x xs ih =>
    intro acc p
    simp only [List.cons_append, latestAux]
    exact ih _ p

theorem latestAux_mem (l : List ProfileRow) :
    ∀ (acc : Option ProfileRow) (q : ProfileRow),
      latestAux acc l = some q → q ∈ l ∨ acc = some q := by
  induction l with
  | nil =>
    intro acc q h
    exact Or.inr h
  | cons x xs ih =>
    intro acc q h
    simp only [latestAux] at h
    rcases ih _ q h with h1 | h2
    · exact Or.inl (List.mem_cons_of_mem x h1)
    · cases acc with
      | none =>
        simp only [latestStep, Option.some.injEq] at h2
        exact Or.inl (h2 ▸ List.mem_cons_self x xs)
      | some r =>
        simp only [latestStep] at h2
        by_cases hv : r.version < x.version
        · rw [if_pos hv] at h2
          simp only [Option.some.injEq] at h2
          exact Or.inl (h2 ▸ List.mem_cons_self x xs)
        · rw [if_neg hv] at h2
          exact Or.inr h2

theorem foldl_max_range' (n : Nat) : (List.range' 1 n).foldl max 0 = n := by
  induction n with
  | zero => rfl
  | succ k ih =>
    rw [List.range'_concat, List.foldl_append, ih]
    simp [Nat.max_def]
    omega

theorem maxVersion_of_range (l : List ProfileRow) (n : Nat)
    (h : l.map ProfileRow.version = List.range' 1 n) : maxVersion l = n := by
  unfold maxVersion
  have hmap : (l.map ProfileRow.version).foldl max 0
      = l.foldl (fun a p => max a p.version) 0 := List.foldl_map _ _ _ _
  rw [← hmap, h, foldl_max_range']

/-- Claim C1: the profile store assigns server-side versions — after any
sequence of profile saves for a user the stored versions are exactly
`{1, …, N}` in order, and `get_latest_profile` returns the version-N
profile, which holds the most recently saved content.
(`Database.save_profile` is modelled from the spec; see `saveProfile`.) -/
theorem profile_versions_monotonic (saves : List String) :
    (profilesAfter saves).map ProfileRow.version = List.range' 1 saves.length ∧
      (saves ≠ [] →
        getLatestProfile (profilesAfter saves)
          = some ⟨saves.length, saves.getLastD ""⟩) := by
  induction saves using List.reverseRecOn with
  | nil => exact ⟨rfl, fun h => absurd rfl h⟩
  | append_singleton xs x ih =>
    have hpf : profilesAfter (xs ++ [x])
        = profilesAfter xs ++ [⟨maxVersion (profilesAfter xs) + 1, x⟩] := by
      simp [profilesAfter, List.foldl_append, saveProfile]
    have hmax : maxVersion (profilesAfter xs) = xs.length :=
      maxVersion_of_range _ _ ih.1
    constructor
    · rw [hpf, List.map_append, ih.1, hmax]
      simp [List.range'_concat, Nat.add_comm]
    · intro _
      unfold getLatestProfile
      rw [hpf, hmax, latestAux_append]
      cases hq : latestAux none (profilesAfter xs) with
      | none =>
        simp [latestStep, List.getLastD_concat]
      | some q =>
        have hqmem : q ∈ profilesAfter xs := by
          rcases latestAux_mem _ none q hq with h1 | h2
          · exact h1
          · exact absurd h2 (by simp)
        have hv : q.version ∈ (profilesAfter xs).map ProfileRow.version :=
          List.mem_map_of_mem _ hqmem
        rw [ih.1] at hv
        have hvlt : q.version < xs.length + 1 := by
          have := List.mem_range'_1.mp hv
          omega
        simp [latestStep, hvlt, List.getLastD_concat]

/-- Claim C1 witness: two saves produce versions `[1, 2]` and the latest
profile is version 2 with the second content. -/
theorem profile_versions_monotonic_witness :
    (profilesAfter ["first", "second"]).map ProfileRow.version = List.range' 1 2 ∧
      getLatestProfile (profilesAfter ["first", "second"]) = some ⟨2, "second"⟩ := by
  have h := profile_versions_monotonic ["first", "second"]
  exact ⟨h.1, h.2 (by decide)⟩

theorem consensusLoop_reached_merge (p : Protocol) :
    ∀ (remaining roundNum consecutive : Nat) (rounds : List CRound),
      roundNum = rounds.length + 1 →
      (consensusLoop p roundNum remaining consecutive rounds).1 = true →
      (consensusLoop p roundNum remaining consecutive rounds).2.1 =
        mergeOutputs
          (p.genA ((consensusLoop p roundNum remaining consecutive rounds).2.2.length))
          (p.genB ((consensusLoop p roundNum remaining consecutive rounds).2.2.length))
          (p.revAofB ((consensusLoop p roundNum remaining consecutive rounds).2.2.length))
          (p.revBofA ((consensusLoop p roundNum remaining consecutive rounds).2.2.length)) := by
  intro remaining
  induction remaining with
  | zero =>
    intro roundNum consecutive rounds _ htrue
    simp [consensusLoop] at htrue
  | succ rem ih =>
    intro roundNum consecutive rounds hrn htrue
    by_cases happ : ((p.revBofA roundNum).approved && (p.revAofB roundNum).approved) = true
    · by_cases hbeta : p.betaThreshold ≤ consecutive + 1
      · have hres : consensusLoop p roundNum (rem + 1) consecutive rounds =
            (true, mergeOutputs (p.genA roundNum) (p.genB roundNum)
              (p.revAofB roundNum) (p.revBofA roundNum),
              rounds ++ [⟨roundNum, p.genA roundNum, p.genB roundNum,
                p.revAofB roundNum, p.revBofA roundNum, true⟩]) := by
          simp only [consensusLoop]
          rw [if_pos happ, if_pos hbeta]
        rw [hres]
        simp [hrn]
      · have hres : consensusLoop p roundNum (rem + 1) consecutive rounds =
            consensusLoop p (roundNum + 1) rem (consecutive + 1)
              (rounds ++ [⟨roundNum, p.genA roundNum, p.genB roundNum,
                p.revAofB roundNum, p.revBofA roundNum, true⟩]) := by
          simp only [consensusLoop]
          rw [if_pos happ, if_neg hbeta]
        rw [hres] at htrue ⊢
        exact ih _ _ _ (by simp [hrn]) htrue
    · have hres : consensusLoop p roundNum (rem + 1) consecutive rounds =
          consensusLoop p (roundNum + 1) rem 0
            (rounds ++ [⟨roundNum, p.genA roundNum, p.genB roundNum,
              p.revAofB roundNum, p.revBofA roundNum, false⟩]) := by
        simp only [consensusLoop]
        rw [if_neg happ]
      rw [hres] at htrue ⊢
      exact ih _ _ _ (by simp [hrn]) htrue

/-- Claim C7: whenever `reach_consensus` reaches consensus, the final output
is the generated output whose reviewer listed more strengths — `Out_A` is
judged by model B's review of A, `Out_B` by model A's review of B — with
ties broken toward model A (the deciding round is the last recorded round,
whose number equals the number of rounds). -/
theorem consensus_merges_stronger_output (p : Protocol)
    (h : (reachConsensus p).reached = true) :
    (reachConsensus p).finalOutput =
      (if (p.revBofA ((reachConsensus p).rounds.length)).strengths.length ≥
          (p.revAofB ((reachConsensus p).rounds.length)).strengths.length
       then p.genA ((reachConsensus p).rounds.length)
       else p.genB ((reachConsensus p).rounds.length)) := by
  have key := consensusLoop_reached_merge p p.maxRounds 1 0 [] rfl
  unfold reachConsensus at h ⊢
  simp only at h ⊢
  rw [if_pos h, key h]
  rfl

/-- Claim C7 witness: the spec scenario — both reviewers approve in round 1
with β = 1; the reviewer of A's output lists one strength, the reviewer of
B's output two, so the final output is B's `"OK_B"`. -/
theorem consensus_merges_stronger_output_witness :
    (reachConsensus protoHappy).reached = true ∧
      (reachConsensus protoHappy).finalOutput =
        (if (protoHappy.revBofA ((reachConsensus protoHappy).rounds.length)).strengths.length ≥
            (protoHappy.revAofB ((reachConsensus protoHappy).rounds.length)).strengths.length
         then protoHappy.genA ((reachConsensus protoHappy).rounds.length)
         else protoHappy.genB ((reachConsensus protoHappy).rounds.length)) ∧
      (reachConsensus protoHappy).finalOutput = "OK_B" :=
  ⟨by decide, consensus_merges_stronger_output protoHappy (by decide), by decide⟩

theorem hotBufferWalk_le (cm : CondensationManager) :
    ∀ (l : List Msg) (tokens count : Nat),
      hotBufferWalk cm l tokens count ≤ count + l.length := by
  intro l
  induction l with
  | nil => intro t c; simp [hotBufferWalk]
  | cons m rest ih =>
    intro t c
    simp only [hotBufferWalk, List.length_cons]
    split
    · have := ih (t + cm.estimateTokens m.content) (c + 1)
      omega
    · omega

theorem hotBufferCount_le (cm : CondensationManager) (recent : List Msg) :
    hotBufferCount cm recent ≤ recent.length := by
  have h := hotBufferWalk_le cm recent.reverse 0 0
  unfold hotBufferCount
  simpa using h

theorem drop_headD_getD {α : Type} (l : List α) :
    ∀ (n : Nat) (d : α), (l.drop n).headD d = l.getD n d := by
  induction l with
  | nil => intro n d; cases n <;> rfl
  | cons x xs ih =>
    intro n d
    cases n with
    | zero => rfl
    | succ k => simp only [List.drop_succ_cons, List.getD_cons_succ]; exact ih k d

theorem mem_getRecentMessages {msgs : List Msg} {k : Nat} {x : Msg}
    (h : x ∈ getRecentMessages msgs k) : x ∈ msgs := by
  unfold getRecentMessages at h
  rw [List.mem_reverse] at h
  have hx := List.take_subset k msgs.reverse h
  rwa [List.mem_reverse] at hx

theorem headD_mem {α : Type} (l : List α) (d : α) (h : l ≠ []) : l.headD d ∈ l := by
  cases l with
  | nil => exact absurd rfl h
  | cons x xs => simp

/-- Claim C4, counterexample: five messages of 10 estimated tokens each with
a hot-buffer budget of 25.  The hot buffer is the two newest messages
`[m4, m5]`, the cutoff is m4's own timestamp, and the returned
"uncondensed" set `[m1, m2, m3, m4]` CONTAINS the hot-buffer message m4 —
it is neither "the messages older than the hot buffer" nor disjoint from
the hot buffer. -/
theorem uncondensed_overlaps_hot_buffer_cx :
    getUncondensedMessages cmHot25 exFiveMsgs [] 100
        = [exMsg 1, exMsg 2, exMsg 3, exMsg 4] ∧
      hotBufferMsgs cmHot25 (getRecentMessages exFiveMsgs 100) = [exMsg 4, exMsg 5] ∧
      exMsg 4 ∈ getUncondensedMessages cmHot25 exFiveMsgs [] 100 ∧
      exMsg 4 ∈ hotBufferMsgs cmHot25 (getRecentMessages exFiveMsgs 100) := by
  decide

/-- Claim C4 (amended): with at least two recent messages and a nonempty hot
buffer, `get_uncondensed_messages` returns exactly the stored messages in
the half-open interval `(latest_summary.period_end, cutoff]` (all messages
up to `cutoff` when no summaries exist), where `cutoff` is the `created_at`
of the OLDEST message inside the hot buffer; that oldest hot-buffer message
therefore belongs to the returned set whenever it postdates the latest
summary period end, so the returned set is NOT disjoint from the hot
buffer. -/
theorem uncondensed_interval (cm : CondensationManager) (msgs : List Msg)
    (sums : List Summary) (now : Nat)
    (h2 : 2 ≤ (getRecentMessages msgs 100).length)
    (hhb : 0 < hotBufferCount cm (getRecentMessages msgs 100)) :
    getUncondensedMessages cm msgs sums now =
        msgs.filter (fun m =>
          (match latestSummaryEnd sums with
           | some s => decide (s < m.createdAt)
           | none => true) &&
          decide (m.createdAt ≤ cutoffDate cm (getRecentMessages msgs 100) now)) ∧
      cutoffDate cm (getRecentMessages msgs 100) now =
        ((hotBufferMsgs cm (getRecentMessages msgs 100)).headD dummyMsg).createdAt ∧
      (hotBufferMsgs cm (getRecentMessages msgs 100)).headD dummyMsg
        ∈ hotBufferMsgs cm (getRecentMessages msgs 100) ∧
      (latestSummaryEnd sums = none →
        (hotBufferMsgs cm (getRecentMessages msgs 100)).headD dummyMsg
          ∈ getUncondensedMessages cm msgs sums now) ∧
      (∀ s, latestSummaryEnd sums = some s →
        s < ((hotBufferMsgs cm (getRecentMessages msgs 100)).headD dummyMsg).createdAt →
        (hotBufferMsgs cm (getRecentMessages msgs 100)).headD dummyMsg
          ∈ getUncondensedMessages cm msgs sums now) := by
  have hchar : getUncondensedMessages cm msgs sums now =
      msgs.filter (fun m =>
        (match latestSummaryEnd sums with
         | some s => decide (s < m.createdAt)
         | none => true) &&
        decide (m.createdAt ≤ cutoffDate cm (getRecentMessages msgs 100) now)) := by
    unfold getUncondensedMessages
    rw [if_neg (by omega)]
    cases hls : latestSummaryEnd sums with
    | none => simp [getMessagesInRange]
    | some s =>
      simp only [getMessagesInRange, Option.all_some, Option.all_none]
      rw [List.filter_filter]
      apply List.filter_congr
      intro m _
      by_cases hs : s < m.createdAt
      · by_cases hc : m.createdAt ≤ cutoffDate cm (getRecentMessages msgs 100) now
        · simp [hs, hc, Nat.le_of_lt hs]
        · simp [hs, hc]
      · simp [hs]
  have hne : hotBufferMsgs cm (getRecentMessages msgs 100) ≠ [] := by
    unfold hotBufferMsgs
    have hle := hotBufferCount_le cm (getRecentMessages msgs 100)
    intro hemp
    have hl : ((getRecentMessages msgs 100).drop
        ((getRecentMessages msgs 100).length
          - hotBufferCount cm (getRecentMessages msgs 100))).length = 0 := by
      rw [hemp]; rfl
    rw [List.length_drop] at hl
    omega
  have hcut : cutoffDate cm (getRecentMessages msgs 100) now =
      ((hotBufferMsgs cm (getRecentMessages msgs 100)).headD dummyMsg).createdAt := by
    simp only [cutoffDate, hotBufferMsgs]
    rw [if_pos hhb, drop_headD_getD]
  have holdrecent : (hotBufferMsgs cm (getRecentMessages msgs 100)).headD dummyMsg
      ∈ getRecentMessages msgs 100 := by
    have hmem := headD_mem _ dummyMsg hne
    exact List.drop_subset _ _ hmem
  have holdmsgs : (hotBufferMsgs cm (getRecentMessages msgs 100)).headD dummyMsg ∈ msgs :=
    mem_getRecentMessages holdrecent
  refine ⟨hchar, hcut, headD_mem _ dummyMsg hne, ?_, ?_⟩
  · intro hlsn
    rw [hchar, List.mem_filter]
    refine ⟨holdmsgs, ?_⟩
    simp [hlsn, hcut]
  · intro s hlss hlt
    rw [hchar, List.mem_filter]
    refine ⟨holdmsgs, ?_⟩
    simp [hlss, hcut]
    simpa using hlt

/-- Claim C4 witness: the amended characterization at the concrete
five-message store with hot-buffer budget 25 and no summaries. -/
theorem uncondensed_interval_witness :
    getUncondensedMessages cmHot25 exFiveMsgs [] 100 =
        exFiveMsgs.filter (fun m =>
          (match latestSummaryEnd ([] : List Summary) with
           | some s => decide (s < m.createdAt)
           | none => true) &&
          decide (m.createdAt ≤ cutoffDate cmHot25 (getRecentMessages exFiveMsgs 100) 100)) ∧
      cutoffDate cmHot25 (getRecentMessages exFiveMsgs 100) 100 =
        ((hotBufferMsgs cmHot25 (getRecentMessages exFiveMsgs 100)).headD dummyMsg).createdAt ∧
      (hotBufferMsgs cmHot25 (getRecentMessages exFiveMsgs 100)).headD dummyMsg
        ∈ hotBufferMsgs cmHot25 (getRecentMessages exFiveMsgs 100) ∧
      (latestSummaryEnd ([] : List Summary) = none →
        (hotBufferMsgs cmHot25 (getRecentMessages exFiveMsgs 100)).headD dummyMsg
          ∈ getUncondensedMessages cmHot25 exFiveMsgs [] 100) ∧
      (∀ s, latestSummaryEnd ([] : List Summary) = some s →
        s < ((hotBufferMsgs cmHot25 (getRecentMessages exFiveMsgs 100)).headD dummyMsg).createdAt →
        (hotBufferMsgs cmHot25 (getRecentMessages exFiveMsgs 100)).headD dummyMsg
          ∈ getUncondensedMessages cmHot25 exFiveMsgs [] 100) :=
  uncondensed_interval cmHot25 exFiveMsgs [] 100 (by decide) (by decide)

theorem keywords_safeKeywordSentence :
    containsSensitiveKeywords safeKeywordSentence = false := by
  decide

theorem keywords_safeLeakSentence :
    containsSensitiveKeywords safeLeakSentence = false := by
  decide

/-- Claim C9, counterexample: with the protected prompt chosen as the
guard's own keyword-replacement sentence (k = 5, τ = 3/10), guarding the
response `"psych_update"` yields that replacement sentence, and guarding
the result again n-gram-blocks it into the OTHER fixed sentence — so
`guard(guard(x)) ≠ guard(x)`. -/
theorem guard_not_idempotent_cx :
    (guardResponse (guardResponse respPsychUpdate safeKeywordSentence 5 3 10).1
        safeKeywordSentence 5 3 10).1
      ≠ (guardResponse respPsychUpdate safeKeywordSentence 5 3 10).1 := by
  decide

/-- Claim C9 (amended): `guard_response` is idempotent on the text component
for every response, protected prompt, n-gram size and threshold SUCH THAT
the fixed keyword-replacement sentence does not itself trip the n-gram
check against the protected prompt (neither fixed sentence contains a
sensitive keyword, and the leak-replacement path is idempotent
unconditionally). -/
theorem guard_idempotent (response protectedPrompt : List Nat) (k tn td : Nat)
    (hsafe : checkLeakage (extractNgrams k protectedPrompt) k tn td
      safeKeywordSentence = false) :
    (guardResponse (guardResponse response protectedPrompt k tn td).1
        protectedPrompt k tn td).1
      = (guardResponse response protectedPrompt k tn td).1 := by
  unfold guardResponse
  by_cases h1 : containsSensitiveKeywords response = true
  · simp [h1, keywords_safeKeywordSentence, hsafe]
  · by_cases h2 : checkLeakage (extractNgrams k protectedPrompt) k tn td response = true
    · simp only [h1, h2]
      simp [keywords_safeLeakSentence]
      by_cases h3 : checkLeakage (extractNgrams k protectedPrompt) k tn td
          safeLeakSentence = true <;> simp [h3]
    · simp [h1, h2]

/-- Claim C9 witness: idempotence at the concrete response
`"psych_update"` with a short protected prompt that cannot block the safe
sentence. -/
theorem guard_idempotent_witness :
    (guardResponse (guardResponse respPsychUpdate (enc "hello there friend") 5 3 10).1
        (enc "hello there friend") 5 3 10).1
      = (guardResponse respPsychUpdate (enc "hello there friend") 5 3 10).1 :=
  guard_idempotent respPsychUpdate (enc "hello there friend") 5 3 10 (by decide)

end StoicEmperor
